import Mathlib

/-!
# Verification of the clinical-trials retrieval-and-normalization core

Shallow embedding of the repository's core pipeline:
* `src/utils/utils.py`: `clean_html`, `parse_date`, `structure_clinical_trial`,
  `parse_criteria` (the Field Extractor and Criteria Splitter),
* `src/utils/api_handler.py` / `src/api_handler.py`: `APIHandler.fetch_studies`
  (the Paginator) and `APIHandler.structure_data` (the Batch Structurer).

Python values are modelled by `PyVal`; Python exceptions (AttributeError from
attribute access on a non-dict, TypeError from, e.g., `re.sub` on a non-string)
are modelled with `Except PyErr`.
-/

/-- A Python value, as far as the core pipeline observes it: `None`, booleans,
integers, strings, lists and string-keyed dicts (JSON-shaped data). -/
inductive PyVal where
  | none
  | bool (b : Bool)
  | int (n : Int)
  | str (s : String)
  | list (xs : List PyVal)
  | dict (fields : List (String × PyVal))
deriving Repr

/-- The Python exceptions the embedded code can raise. -/
inductive PyErr where
  | attributeError
  | typeError
  | exception (msg : String)
deriving Repr, DecidableEq

/-- Python truthiness (`if x:`) for the modelled values. -/
def pyTruthy : PyVal → Bool
  | .none => false
  | .bool b => b
  | .int n => n != 0
  | .str s => !s.data.isEmpty
  | .list xs => !xs.isEmpty
  | .dict fs => !fs.isEmpty

def isDict : PyVal → Bool
  | .dict _ => true
  | _ => false

def isStr : PyVal → Bool
  | .str _ => true
  | _ => false

def PyVal.isNone : PyVal → Bool
  | .none => true
  | _ => false

/-- `d.get(k, default)` on a dict represented as an association list. -/
def dictGet (fs : List (String × PyVal)) (k : String) (d : PyVal) : PyVal :=
  match fs.lookup k with
  | some v => v
  | none => d

/-- `d[k] = v` on a dict: replace the value if the key is present, append the
key at the end otherwise (Python dicts preserve insertion order). -/
def dictSet (fs : List (String × PyVal)) (k : String) (v : PyVal) : List (String × PyVal) :=
  match fs with
  | [] => [(k, v)]
  | (k', v') :: rest => if k' = k then (k, v) :: rest else (k', v') :: dictSet rest k v

/-- `x.get(k, default)`: succeeds on dicts, raises AttributeError otherwise. -/
def pyGet (v : PyVal) (k : String) (d : PyVal) : Except PyErr PyVal :=
  match v with
  | .dict fs => .ok (dictGet fs k d)
  | _ => .error .attributeError

/-- `x.get(k)` (default `None`). -/
def pyGetN (v : PyVal) (k : String) : Except PyErr PyVal :=
  pyGet v k PyVal.none

/-- `for x in v`: lists yield their elements, strings their characters, dicts
their keys; other values raise TypeError. -/
def pyIter : PyVal → Except PyErr (List PyVal)
  | .list xs => .ok xs
  | .str s => .ok (s.data.map (fun c => .str (String.mk [c])))
  | .dict fs => .ok (fs.map (fun kv => .str kv.1))
  | _ => .error .typeError

/-- Sequential monadic map, mirroring a Python list comprehension: elements are
processed left to right and the first exception aborts the whole expression. -/
def exMapM (f : PyVal → Except PyErr PyVal) : List PyVal → Except PyErr (List PyVal)
  | [] => .ok []
  | x :: rest => do
    let y ← f x
    let ys ← exMapM f rest
    .ok (y :: ys)

def isOkE {α : Type} : Except PyErr α → Bool
  | .ok _ => true
  | .error _ => false

/-! ## clean_html (src/utils/utils.py lines 39-51)

`re.sub('<.*?>', '', raw_html)`: each `<` followed (without an intervening
newline, since `.` does not match `\n`) by a nearest `>` is removed together
with everything between them. -/

/-- Scan for the closing `>` of a tag: returns the remainder after the nearest
`>`, failing on a newline or the end of the string (`.` does not match `\n`). -/
def findClose : List Char → Option (List Char)
  | [] => none
  | c :: rest =>
    if c = '>' then some rest
    else if c = '\n' then none
    else findClose rest

/-- Remove every `<...>` span (shortest match, no newline inside), as
`re.sub('<.*?>', '', s)` does. The fuel argument (always at least the length of
the input, see `stripTags`) keeps the recursion structural. -/
def stripTagsFuel : Nat → List Char → List Char
  | 0, _ => []
  | _ + 1, [] => []
  | fuel + 1, c :: rest =>
    if c = '<' then
      match findClose rest with
      | some rest2 => stripTagsFuel fuel rest2
      | none => '<' :: stripTagsFuel fuel rest
    else c :: stripTagsFuel fuel rest

def stripTags (cs : List Char) : List Char := stripTagsFuel cs.length cs

def stripTagsStr (s : String) : String := String.mk (stripTags s.data)

/-- `clean_html(raw_html)`: strips `<...>` spans from a string; `re.sub` on a
non-string raises TypeError. -/
def clean_html (raw_html : PyVal) : Except PyErr PyVal :=
  match raw_html with
  | .str s => .ok (.str (stripTagsStr s))
  | _ => .error .typeError

/-! ## parse_date (src/utils/utils.py lines 53-69)

`datetime.strptime(date_string, "%B %d, %Y").strftime("%Y-%m-%d")` with
`except ValueError` returning the original string. `strptime` on a non-string
raises TypeError, which the source does not catch. -/

def monthTable : List (String × Nat) :=
  [("january", 1), ("february", 2), ("march", 3), ("april", 4), ("may", 5), ("june", 6),
   ("july", 7), ("august", 8), ("september", 9), ("october", 10), ("november", 11),
   ("december", 12)]

def lowerChars (cs : List Char) : List Char := cs.map Char.toLower

/-- Match a full English month name (case-insensitively, as `%B` does). -/
def tryMonth (cs : List Char) : List (String × Nat) → Option (Nat × List Char)
  | [] => none
  | (name, m) :: rest =>
    if lowerChars (cs.take name.length) = name.data then some (m, cs.drop name.length)
    else tryMonth cs rest

def isWsChar (c : Char) : Bool :=
  c = ' ' || c = '\t' || c = '\n' || c = '\r' || c = '\x0b' || c = '\x0c'

def skipWsMore : List Char → List Char
  | [] => []
  | c :: rest => if isWsChar c then skipWsMore rest else c :: rest

/-- `\s+`: at least one whitespace character, consumed greedily. -/
def skipWs1 : List Char → Option (List Char)
  | [] => none
  | c :: rest => if isWsChar c then some (skipWsMore rest) else none

def digitVal (c : Char) : Nat := c.toNat - '0'.toNat

/-- `%d`: `3[01] | [12]\d | 0[1-9] | [1-9]`, alternatives tried in order. -/
def parseDay : List Char → Option (Nat × List Char)
  | [] => none
  | [c1] => if '1' ≤ c1 && c1 ≤ '9' then some (digitVal c1, []) else none
  | c1 :: c2 :: rest =>
    if c1 = '3' && (c2 = '0' || c2 = '1') then some (30 + digitVal c2, rest)
    else if (c1 = '1' || c1 = '2') && c2.isDigit then some (digitVal c1 * 10 + digitVal c2, rest)
    else if c1 = '0' && ('1' ≤ c2 && c2 ≤ '9') then some (digitVal c2, rest)
    else if '1' ≤ c1 && c1 ≤ '9' then some (digitVal c1, c2 :: rest)
    else none

/-- `%Y`: exactly four digits. -/
def parse4Digits : List Char → Option (Nat × List Char)
  | a :: b :: c :: d :: rest =>
    if a.isDigit && b.isDigit && c.isDigit && d.isDigit then
      some (digitVal a * 1000 + digitVal b * 100 + digitVal c * 10 + digitVal d, rest)
    else none
  | _ => none

def isLeap (y : Nat) : Bool := (y % 4 = 0 && y % 100 ≠ 0) || y % 400 = 0

def daysInMonth (y m : Nat) : Nat :=
  if m = 2 then (if isLeap y then 29 else 28)
  else if m = 4 || m = 6 || m = 9 || m = 11 then 30 else 31

/-- `datetime.strptime(s, "%B %d, %Y")`: month name, whitespace, day, comma,
whitespace, four-digit year, end of string, then calendar validation by the
`datetime` constructor. Returns `(year, month, day)` or `none` (ValueError). -/
def strptimeBdY (s : String) : Option (Nat × Nat × Nat) := do
  let (m, r1) ← tryMonth s.data monthTable
  let r2 ← skipWs1 r1
  let (d, r3) ← parseDay r2
  let r4 ← match r3 with
    | ',' :: t => some t
    | _ => none
  let r5 ← skipWs1 r4
  let (y, r6) ← parse4Digits r5
  if r6 = [] && 1 ≤ y && d ≤ daysInMonth y m then some (y, m, d) else none

def padNum (width n : Nat) : String :=
  let s := toString n
  String.mk (List.replicate (width - s.length) '0') ++ s

/-- `strftime("%Y-%m-%d")`. -/
def formatYMD (y m d : Nat) : String :=
  padNum 4 y ++ "-" ++ padNum 2 m ++ "-" ++ padNum 2 d

/-- `parse_date(date_string)`: falsy input yields `None`; a truthy string is
parsed, with ValueError caught (original string returned); a truthy non-string
reaches `strptime`, whose TypeError is not caught by `except ValueError`. -/
def parse_date (date_string : PyVal) : Except PyErr PyVal :=
  if pyTruthy date_string then
    match date_string with
    | .str s =>
      match strptimeBdY s with
      | some (y, m, d) => .ok (.str (formatYMD y m d))
      | none => .ok (.str s)
    | _ => .error .typeError
  else .ok PyVal.none

/-! ## parse_criteria (src/utils/utils.py lines 174-202) -/

/-- Substring test on character lists (Python's `needle in hay`). -/
def charsSub (needle : List Char) : List Char → Bool
  | [] => needle.isEmpty
  | c :: rest => needle.isPrefixOf (c :: rest) || charsSub needle rest

/-- Python's `needle in hay` for strings. -/
def strContains (hay needle : String) : Bool := charsSub needle.data hay.data

/-- `s.split('\n')`: Python semantics, so `"".split('\n') == [""]` and a
trailing separator yields a trailing empty piece. -/
def splitOnNl : List Char → List (List Char)
  | [] => [[]]
  | c :: rest =>
    if c = '\n' then [] :: splitOnNl rest
    else
      match splitOnNl rest with
      | l :: ls => (c :: l) :: ls
      | [] => [[c]]

def dropLeadingWs : List Char → List Char
  | [] => []
  | c :: rest => if isWsChar c then dropLeadingWs rest else c :: rest

/-- Python's `line.strip()`: whitespace removed from both ends. -/
def stripChars (cs : List Char) : List Char :=
  (dropLeadingWs (dropLeadingWs cs).reverse).reverse

/-- `'\n'.join(...)` on character lists. -/
def joinLines : List (List Char) → List Char
  | [] => []
  | [l] => l
  | l :: rest => l ++ '\n' :: joinLines rest

/-- The line scan of `parse_criteria`: a line containing
`f"{criteria_type} Criteria:"` turns the flag on and is discarded; otherwise a
line containing `"Criteria:"` but not `criteria_type` turns the flag off;
otherwise a non-blank line is collected (stripped) while the flag is on. -/
def criteriaLoop (ctype : List Char) : List (List Char) → Bool → List (List Char) → List (List Char)
  | [], _, acc => acc.reverse
  | line :: rest, inSec, acc =>
    if charsSub (ctype ++ " Criteria:".data) line then criteriaLoop ctype rest true acc
    else if charsSub "Criteria:".data line && !charsSub ctype line then
      criteriaLoop ctype rest false acc
    else if inSec && !(stripChars line).isEmpty then
      criteriaLoop ctype rest inSec (stripChars line :: acc)
    else criteriaLoop ctype rest inSec acc

/-- `parse_criteria(criteria_text, criteria_type)`: falsy text yields `None`;
a truthy non-string raises AttributeError at `.split`; otherwise the line scan
runs and the collected lines are newline-joined (`None` if none collected). -/
def parse_criteria (criteria_text : PyVal) (criteria_type : String) : Except PyErr PyVal :=
  if pyTruthy criteria_text then
    match criteria_text with
    | .str s =>
      let sec := criteriaLoop criteria_type.data (splitOnNl s.data) false []
      .ok (if sec.isEmpty then PyVal.none else .str (String.mk (joinLines sec)))
    | _ => .error .attributeError
  else .ok PyVal.none

/-! ## structure_clinical_trial (src/utils/utils.py lines 71-172)

The candidate is rejected (returning Python `None`) if it is not a dict or if
its `protocolSection` / `derivedSection` values are not dicts; afterwards every
value of the result dict literal is computed in source order, each as a small
helper definition below. `ps` and `ds` are the two section dicts. -/

/-- `protocol_section.get(k, {})` (or on the derived section): the section is
already known to be a dict, so this access cannot raise. -/
def modGet (ps : List (String × PyVal)) (k : String) : PyVal := dictGet ps k (.dict [])

def f_nct_id (ps : List (String × PyVal)) : Except PyErr PyVal :=
  pyGetN (modGet ps "identificationModule") "nctId"

def f_title (ps : List (String × PyVal)) : Except PyErr PyVal :=
  pyGetN (modGet ps "identificationModule") "officialTitle"

def f_brief_summary (ps : List (String × PyVal)) : Except PyErr PyVal := do
  clean_html (← pyGet (modGet ps "descriptionModule") "briefSummary" (.str ""))

def f_detailed_description (ps : List (String × PyVal)) : Except PyErr PyVal := do
  clean_html (← pyGet (modGet ps "descriptionModule") "detailedDescription" (.str ""))

def f_status (ps : List (String × PyVal)) : Except PyErr PyVal :=
  pyGetN (modGet ps "statusModule") "overallStatus"

def f_start_date (ps : List (String × PyVal)) : Except PyErr PyVal := do
  let sds ← pyGet (modGet ps "statusModule") "startDateStruct" (.dict [])
  parse_date (← pyGetN sds "date")

def f_end_date (ps : List (String × PyVal)) : Except PyErr PyVal := do
  let cds ← pyGet (modGet ps "statusModule") "completionDateStruct" (.dict [])
  parse_date (← pyGetN cds "date")

/-- The nested `"eligibility"` dict literal (`em` is
`protocol_section.get('eligibilityModule', {})`, which may be any value). -/
def f_eligibility (em : PyVal) : Except PyErr PyVal := do
  let criteria ← clean_html (← pyGet em "eligibilityCriteria" (.str ""))
  let hv ← pyGetN em "healthyVolunteers"
  let sex ← pyGetN em "sex"
  let gb ← pyGetN em "genderBased"
  let mn ← pyGetN em "minimumAge"
  let mx ← pyGetN em "maximumAge"
  return .dict [("criteria", criteria), ("healthy_volunteers", hv), ("sex", sex),
    ("gender_based", gb), ("minimum_age", mn), ("maximum_age", mx)]

def f_inclusion_criteria (em : PyVal) : Except PyErr PyVal := do
  parse_criteria (← pyGet em "eligibilityCriteria" (.str "")) "Inclusion"

def f_exclusion_criteria (em : PyVal) : Except PyErr PyVal := do
  parse_criteria (← pyGet em "eligibilityCriteria" (.str "")) "Exclusion"

def f_interventions (ps : List (String × PyVal)) : Except PyErr PyVal := do
  let ivs ← pyGet (modGet ps "armsInterventionsModule") "interventions" (.list [])
  let items ← pyIter ivs
  let entries ← exMapM (fun iv => do
    let t ← pyGetN iv "type"
    let n ← pyGetN iv "name"
    let d ← pyGetN iv "description"
    return PyVal.dict [("type", t), ("name", n), ("description", d)]) items
  return .list entries

def f_outcomes (ps : List (String × PyVal)) : Except PyErr PyVal := do
  let pv ← pyGet (modGet ps "outcomesModule") "primaryOutcomes" (.list [])
  let pitems ← pyIter pv
  let prim ← exMapM (fun o => pyGetN o "measure") pitems
  let sv ← pyGet (modGet ps "outcomesModule") "secondaryOutcomes" (.list [])
  let sitems ← pyIter sv
  let sec ← exMapM (fun o => pyGetN o "measure") sitems
  return .dict [("primary", .list prim), ("secondary", .list sec)]

def f_sponsor (ps : List (String × PyVal)) : Except PyErr PyVal := do
  let ls1 ← pyGet (modGet ps "sponsorCollaboratorsModule") "leadSponsor" (.dict [])
  let name ← pyGetN ls1 "name"
  let ls2 ← pyGet (modGet ps "sponsorCollaboratorsModule") "leadSponsor" (.dict [])
  let ty ← pyGetN ls2 "class"
  return .dict [("name", name), ("type", ty)]

def f_publications (ds : List (String × PyVal)) : Except PyErr PyVal := do
  let rv ← pyGet (modGet ds "publicationModule") "references" (.list [])
  let items ← pyIter rv
  let entries ← exMapM (fun r => do
    let t ← pyGetN r "title"
    let c ← pyGetN r "citation"
    let p ← pyGetN r "pmid"
    return PyVal.dict [("title", t), ("citation", c), ("pmid", p)]) items
  return .list entries

/-- One location entry built from a dict-shaped location candidate: if
`location.get('facility')` is a dict take its nested `name`, otherwise use the
raw facility value (which is `None` when the key is absent). -/
def locEntry (lfs : List (String × PyVal)) : PyVal :=
  .dict [("facility",
            match dictGet lfs "facility" PyVal.none with
            | .dict ffs => dictGet ffs "name" PyVal.none
            | fv => fv),
         ("city", dictGet lfs "city" PyVal.none),
         ("country", dictGet lfs "country" PyVal.none)]

/-- The list-comprehension filter over location candidates: only dict-shaped
entries produce an output entry (`if isinstance(location, dict)`). -/
def locFilter (v : PyVal) : Option PyVal :=
  match v with
  | .dict lfs => some (locEntry lfs)
  | _ => none

/-- The `structured_data` dict literal, in the source's key order, with
`"locations"` initialised to the empty list. -/
def mkBase (nct_id title brief_summary detailed_description status start_date end_date
    eligibility inclusion_criteria exclusion_criteria hve sexe mina maxa interventions
    outcomes sponsor publications : PyVal) : List (String × PyVal) :=
  [("nct_id", nct_id), ("title", title), ("brief_summary", brief_summary),
   ("detailed_description", detailed_description), ("status", status),
   ("start_date", start_date), ("end_date", end_date), ("eligibility", eligibility),
   ("inclusion_criteria", inclusion_criteria), ("exclusion_criteria", exclusion_criteria),
   ("healthy_volunteers_eligible", hve), ("sex_eligible", sexe),
   ("minimum_age", mina), ("maximum_age", maxa),
   ("interventions", interventions), ("outcomes", outcomes), ("sponsor", sponsor),
   ("locations", PyVal.list []), ("publications", publications)]

/-- Body of `structure_clinical_trial` once both sections are known to be
dicts: build the dict literal (values evaluated in source order), then process
the location information, overwriting the `"locations"` entry. -/
def structureBody (ps ds : List (String × PyVal)) : Except PyErr PyVal := do
  let em := modGet ps "eligibilityModule"
  let nct_id ← f_nct_id ps
  let title ← f_title ps
  let brief_summary ← f_brief_summary ps
  let detailed_description ← f_detailed_description ps
  let status ← f_status ps
  let start_date ← f_start_date ps
  let end_date ← f_end_date ps
  let eligibility ← f_eligibility em
  let inclusion_criteria ← f_inclusion_criteria em
  let exclusion_criteria ← f_exclusion_criteria em
  let hve ← pyGetN em "healthyVolunteers"
  let sexe ← pyGetN em "sex"
  let mina ← pyGetN em "minimumAge"
  let maxa ← pyGetN em "maximumAge"
  let interventions ← f_interventions ps
  let outcomes ← f_outcomes ps
  let sponsor ← f_sponsor ps
  let publications ← f_publications ds
  let base := mkBase nct_id title brief_summary detailed_description status start_date
    end_date eligibility inclusion_criteria exclusion_criteria hve sexe mina maxa
    interventions outcomes sponsor publications
  let locsV ← pyGet (modGet ps "contactsLocationsModule") "locations" (.list [])
  match locsV with
  | .list l => return .dict (dictSet base "locations" (.list (l.filterMap locFilter)))
  | .str s =>
      return .dict (dictSet base "locations"
        (.list [.dict [("facility", .str s), ("city", PyVal.none), ("country", PyVal.none)]]))
  | _ => return .dict base

/-- `structure_clinical_trial(study)`: a non-dict study, or a study whose
`protocolSection`/`derivedSection` value is not a dict, yields Python `None`
(with a printed warning, a side effect not modelled); otherwise the structured
record is built. -/
def structure_clinical_trial (study : PyVal) : Except PyErr PyVal :=
  match study with
  | .dict fs =>
    match dictGet fs "protocolSection" (.dict []), dictGet fs "derivedSection" (.dict []) with
    | .dict ps, .dict ds => structureBody ps ds
    | _, _ => .ok PyVal.none
  | _ => .ok PyVal.none

/-! ## APIHandler (src/utils/api_handler.py, src/api_handler.py) -/

/-- `structure_data(studies)` (src/utils/api_handler.py line 86): the list
comprehension `[structure_clinical_trial(study) for study in studies if study
is not None]` — the filter drops `None` *inputs*; extraction results are
collected unconditionally. -/
def structure_data (studies : List PyVal) : Except PyErr (List PyVal) :=
  exMapM structure_clinical_trial (studies.filter (fun s => !s.isNone))

/-- One HTTP response of the paged studies endpoint: status code, raw body
text, and the decoded JSON object (`response.json()`). -/
structure Resp where
  status : Nat
  text : String
  body : List (String × PyVal)

/-- `','.join(...)` over the modelled values: every element must be a string
(TypeError otherwise). -/
def strList : List PyVal → Except PyErr (List String)
  | [] => .ok []
  | .str s :: rest => do
    let t ← strList rest
    .ok (s :: t)
  | _ :: _ => .error .typeError

/-- The `filter.overallStatus` normalization at the top of `fetch_studies`
(src/utils/api_handler.py lines 42-47): a list value is joined with commas, a
string is left alone, anything else is also left alone. -/
def normalizeParams (params : List (String × PyVal)) : Except PyErr (List (String × PyVal)) :=
  match params.lookup "filter.overallStatus" with
  | some (.list xs) =>
    match strList xs with
    | .ok ss => .ok (dictSet params "filter.overallStatus" (.str (String.intercalate "," ss)))
    | .error e => .error e
  | _ => .ok params

/-- `all_studies.extend(data['studies'])` guarded by `'studies' in data`. -/
def getStudies (body : List (String × PyVal)) (acc : List PyVal) : Except PyErr (List PyVal) :=
  match body.lookup "studies" with
  | some v => do
    let xs ← pyIter v
    .ok (acc ++ xs)
  | none => .ok acc

/-- The `while True` pagination loop of `fetch_studies`, run against the finite
list of responses the server will serve in order (one per request issued). The
first component records the `params` of each request issued, the second is the
loop's outcome. A non-200 status raises
`Exception(f"API Error: {status}\n{text}")`; otherwise studies are
accumulated, `totalCount` updates the running total, and a `nextPageToken`
re-enters the loop with `params['pageToken']` set to it. Exhausting the
response list while a next request is pending is a model artifact
(the real loop would keep issuing requests). -/
def fetchGo : List Resp → List (String × PyVal) → List PyVal → PyVal →
    List (List (String × PyVal)) →
    List (List (String × PyVal)) × Except PyErr (List PyVal × PyVal)
  | [], params, _acc, _total, trace => (trace ++ [params], .error (.exception "no response"))
  | r :: rest, params, acc, total, trace =>
    if r.status = 200 then
      match getStudies r.body acc with
      | .error e => (trace ++ [params], .error e)
      | .ok acc2 =>
        let total2 := match r.body.lookup "totalCount" with
          | some v => v
          | none => total
        match r.body.lookup "nextPageToken" with
        | some tok => fetchGo rest (dictSet params "pageToken" tok) acc2 total2 (trace ++ [params])
        | none => (trace ++ [params], .ok (acc2, total2))
    else
      (trace ++ [params],
       .error (.exception ("API Error: " ++ toString r.status ++ "\n" ++ r.text)))

/-- `fetch_studies(params)` (src/utils/api_handler.py lines 37-74): normalize
`filter.overallStatus`, then run the pagination loop starting with empty
accumulator and `total_count = 0`. -/
def fetch_studies (params : List (String × PyVal)) (resps : List Resp) :
    List (List (String × PyVal)) × Except PyErr (List PyVal × PyVal) :=
  match normalizeParams params with
  | .ok p => fetchGo resps p [] (.int 0) []
  | .error e => ([], .error e)

/-- `fetch_and_structure_studies(query_params)`: default parameters overridden
by the caller's query, then fetch and structure. -/
def fetch_and_structure_studies (query_params : List (String × PyVal)) (resps : List Resp) :
    Except PyErr (List PyVal × PyVal) :=
  let params := (query_params.foldl (fun acc kv => dictSet acc kv.1 kv.2)
    [("format", .str "json"), ("pageSize", .int 100), ("countTotal", .str "true")])
  match (fetch_studies params resps).2 with
  | .ok (studies, total_count) =>
    match structure_data studies with
    | .ok structured => .ok (structured, total_count)
    | .error e => .error e
  | .error e => .error e

/-! ## Predicates and fixtures used by the claim statements -/

/-- The top-level keys of the `structured_data` dict literal, in source order. -/
def schemaKeys : List String :=
  ["nct_id", "title", "brief_summary", "detailed_description", "status", "start_date",
   "end_date", "eligibility", "inclusion_criteria", "exclusion_criteria",
   "healthy_volunteers_eligible", "sex_eligible", "minimum_age", "maximum_age",
   "interventions", "outcomes", "sponsor", "locations", "publications"]

/-- Read one field of a successful extraction result. -/
def resultField (r : Except PyErr PyVal) (k : String) : PyVal :=
  match r with
  | .ok (.dict fs) => dictGet fs k PyVal.none
  | _ => PyVal.none

/-- A study whose protocol section carries only the given locations value. -/
def mkLocStudy (locs : PyVal) : PyVal :=
  .dict [("protocolSection", .dict [("contactsLocationsModule", .dict [("locations", locs)])])]

/-- A malformed candidate in the sense the code rejects: not a mapping, or a
mapping whose `protocolSection` or `derivedSection` value is not a mapping. -/
def malformedCand (study : PyVal) : Bool :=
  match study with
  | .dict fs => !isDict (dictGet fs "protocolSection" (.dict [])) ||
                !isDict (dictGet fs "derivedSection" (.dict []))
  | _ => true

/-- C6's notion of a well-formed candidate: a mapping whose protocol and
derived sections, where present, are mappings. -/
def wellFormedCand (study : PyVal) : Bool :=
  match study with
  | .dict fs => isDict (dictGet fs "protocolSection" (.dict [])) &&
                isDict (dictGet fs "derivedSection" (.dict []))
  | _ => false

/-- A value `parse_date` accepts without raising: a string, or anything falsy. -/
def strOrFalsy (v : PyVal) : Bool :=
  match v with
  | .str _ => true
  | _ => !pyTruthy v

/-- A list all of whose elements are dicts (what the per-item `.get` calls of
the comprehensions require). -/
def listOfDicts (v : PyVal) : Bool :=
  match v with
  | .list l => l.all isDict
  | _ => false

/-- `v` is a dict whose entries satisfy `f`. -/
def dictShaped (v : PyVal) (f : List (String × PyVal) → Bool) : Bool :=
  match v with
  | .dict m => f m
  | _ => false

/-- Sufficient expected-type conditions on the two section dicts under which
every nested access and leaf conversion of `structure_clinical_trial`
succeeds: each module, where present, is a dict; text leaves are strings (or
absent); date leaves are strings or falsy; module collections are lists of
dicts; the contacts/locations module is a dict. -/
def innerWellShaped (ps ds : List (String × PyVal)) : Bool :=
  isDict (modGet ps "identificationModule") &&
  dictShaped (modGet ps "descriptionModule") (fun dm =>
    isStr (dictGet dm "briefSummary" (.str "")) &&
    isStr (dictGet dm "detailedDescription" (.str ""))) &&
  dictShaped (modGet ps "statusModule") (fun sm =>
    dictShaped (dictGet sm "startDateStruct" (.dict []))
      (fun sds => strOrFalsy (dictGet sds "date" PyVal.none)) &&
    dictShaped (dictGet sm "completionDateStruct" (.dict []))
      (fun cds => strOrFalsy (dictGet cds "date" PyVal.none))) &&
  dictShaped (modGet ps "eligibilityModule") (fun em =>
    isStr (dictGet em "eligibilityCriteria" (.str ""))) &&
  dictShaped (modGet ps "armsInterventionsModule") (fun am =>
    listOfDicts (dictGet am "interventions" (.list []))) &&
  dictShaped (modGet ps "outcomesModule") (fun om =>
    listOfDicts (dictGet om "primaryOutcomes" (.list [])) &&
    listOfDicts (dictGet om "secondaryOutcomes" (.list []))) &&
  dictShaped (modGet ps "sponsorCollaboratorsModule") (fun scm =>
    isDict (dictGet scm "leadSponsor" (.dict []))) &&
  isDict (modGet ps "contactsLocationsModule") &&
  dictShaped (modGet ds "publicationModule") (fun pm =>
    listOfDicts (dictGet pm "references" (.list [])))

/-- Candidates on which the extractor cannot raise: anything it rejects as
malformed, or a candidate whose sections satisfy `innerWellShaped`. -/
def wellShaped (study : PyVal) : Bool :=
  match study with
  | .dict fs =>
    match dictGet fs "protocolSection" (.dict []), dictGet fs "derivedSection" (.dict []) with
    | .dict ps, .dict ds => innerWellShaped ps ds
    | _, _ => true
  | _ => true

/-- The record `structure_clinical_trial` produces for the empty dict. -/
def emptyFs : List (String × PyVal) :=
  match structure_clinical_trial (.dict []) with
  | .ok (.dict fs) => fs
  | _ => []

/-- A response page usable by the pagination loop's happy path: HTTP 200 and,
if a `studies` key is present, a list value. -/
def goodPage (r : Resp) : Bool :=
  r.status == 200 &&
  (match r.body.lookup "studies" with
   | none => true
   | some (.list _) => true
   | some _ => false)

/-- The C3 fixture shape: a nonempty sequence of good pages in which each page
but the last carries a `nextPageToken` and the last carries none. -/
def goodPages : List Resp → Bool
  | [] => false
  | [r] => goodPage r && (r.body.lookup "nextPageToken").isNone
  | r :: rest => goodPage r && (r.body.lookup "nextPageToken").isSome && goodPages rest

/-- The records a single page contributes under its `studies` key. -/
def pageStudies (r : Resp) : List PyVal :=
  match r.body.lookup "studies" with
  | some (.list l) => l
  | _ => []

/-- All pages' records, concatenated in page order. -/
def concatStudies (resps : List Resp) : List PyVal := (resps.map pageStudies).flatten

/-- The last-seen `totalCount` value over the pages, starting from `t`. -/
def lastTotal (resps : List Resp) (t : PyVal) : PyVal :=
  resps.foldl (fun acc r =>
    match r.body.lookup "totalCount" with
    | some v => v
    | none => acc) t

/-- The request parameters the loop issues page by page: the first request
uses `params` as given, each later one has `pageToken` set to the previous
response's `nextPageToken`. -/
def reqTrace (params : List (String × PyVal)) : List Resp → List (List (String × PyVal))
  | [] => []
  | r :: rest =>
    params :: (match r.body.lookup "nextPageToken" with
      | some tok => reqTrace (dictSet params "pageToken" tok) rest
      | none => [])

/-- The C4 fixture shape: the loop reaches a non-200 response (every earlier
page is good and carries a continuation token). -/
def reachesFailure : List Resp → Bool
  | [] => false
  | r :: rest =>
    if r.status = 200 then
      goodPage r && (r.body.lookup "nextPageToken").isSome && reachesFailure rest
    else true

/-- The first non-200 response. -/
def firstFailure : List Resp → Option Resp
  | [] => none
  | r :: rest => if r.status = 200 then firstFailure rest else some r

/-- Three-page C3 witness fixture: pages 1 and 2 carry tokens, page 3 none. -/
def c3Pages : List Resp :=
  [⟨200, "", [("studies", .list [.int 1, .int 2]), ("totalCount", .int 3),
              ("nextPageToken", .str "tok1")]⟩,
   ⟨200, "", [("studies", .list [.int 3]), ("totalCount", .int 3),
              ("nextPageToken", .str "tok2")]⟩,
   ⟨200, "", [("totalCount", .int 3)]⟩]

/-- Three-page C4 witness fixture: page 2 of 3 fails with HTTP 500. -/
def c4Pages : List Resp :=
  [⟨200, "", [("studies", .list [.int 1]), ("nextPageToken", .str "t")]⟩,
   ⟨500, "boom", []⟩,
   ⟨200, "", [("studies", .list [.int 2])]⟩]

/-! ## Helper lemmas -/

theorem exbind_eq_ok {ε α β : Type} {x : Except ε α} {f : α → Except ε β} {v : β} :
    x >>= f = .ok v ↔ ∃ a, x = .ok a ∧ f a = .ok v := by
  cases x <;> simp [Bind.bind, Except.bind]

theorem okBind {ε α β : Type} (a : α) (f : α → Except ε β) :
    (Except.ok a : Except ε α) >>= f = f a := rfl

theorem parse_date_str_ok (s : String) : ∃ w, parse_date (.str s) = .ok w := by
  unfold parse_date
  cases h : pyTruthy (.str s)
  · rw [if_neg (by simp [h])]
    exact ⟨_, rfl⟩
  · rw [if_pos (by simp [h])]
    cases hp : strptimeBdY s with
    | none => refine ⟨.str s, ?_⟩; simp [hp]
    | some ymd =>
      obtain ⟨y, m, d⟩ := ymd
      refine ⟨.str (formatYMD y m d), ?_⟩
      simp [hp]

theorem prefix_charsSub (ys : List Char) :
    ∀ hay, ys.isPrefixOf hay = true → charsSub ys hay = true := by
  intro hay h
  cases hay with
  | nil =>
    cases ys with
    | nil => rfl
    | cons c cs => simp [List.isPrefixOf] at h
  | cons c rest => simp [charsSub, h]

theorem prefixAppend_charsSub (ys : List Char) :
    ∀ xs hay, (xs ++ ys).isPrefixOf hay = true → charsSub ys hay = true := by
  intro xs
  induction xs with
  | nil => intro hay h; exact prefix_charsSub ys hay h
  | cons x xs ih =>
    intro hay h
    cases hay with
    | nil => simp [List.isPrefixOf] at h
    | cons c rest =>
      simp only [List.cons_append, List.isPrefixOf, Bool.and_eq_true] at h
      have := ih rest h.2
      simp [charsSub, this]

theorem charsSub_of_append (xs ys : List Char) :
    ∀ hay, charsSub (xs ++ ys) hay = true → charsSub ys hay = true := by
  intro hay
  induction hay with
  | nil =>
    intro h
    simp only [charsSub, List.isEmpty_iff, List.append_eq_nil] at h
    simp [charsSub, List.isEmpty_iff, h.2]
  | cons c rest ih =>
    intro h
    have h2 : (xs ++ ys).isPrefixOf (c :: rest) = true ∨ charsSub (xs ++ ys) rest = true := by
      simpa [charsSub] using h
    rcases h2 with hpre | hsub
    · exact prefixAppend_charsSub ys xs (c :: rest) hpre
    · have := ih hsub
      simp [charsSub, this]

theorem criteriaLoop_no_marker (t : String) :
    ∀ lines acc, (∀ line ∈ lines, charsSub "Criteria:".data line = false) →
      criteriaLoop t.data lines false acc = acc.reverse := by
  intro lines
  induction lines with
  | nil => intro acc _; rfl
  | cons line rest ih =>
    intro acc h
    have hline := h line (List.mem_cons_self _ _)
    have hrest : ∀ l ∈ rest, charsSub "Criteria:".data l = false :=
      fun l hl => h l (List.mem_cons_of_mem _ hl)
    have h1 : charsSub (t.data ++ " Criteria:".data) line = false := by
      cases hc : charsSub (t.data ++ " Criteria:".data) line
      · rfl
      · have heq : t.data ++ " Criteria:".data = (t.data ++ [' ']) ++ "Criteria:".data := by
          rw [show (" Criteria:".data) = ' ' :: "Criteria:".data from rfl]
          rw [List.append_cons]
        rw [heq] at hc
        have h2 := charsSub_of_append (t.data ++ [' ']) "Criteria:".data line hc
        rw [h2] at hline
        cases hline
    simp only [criteriaLoop, h1, hline, Bool.false_and, Bool.and_self, if_false,
      Bool.false_eq_true, ite_false]
    exact ih acc hrest

theorem parse_criteria_empty_sec (s t : String)
    (h : criteriaLoop t.data (splitOnNl s.data) false [] = []) :
    parse_criteria (.str s) t = .ok PyVal.none := by
  unfold parse_criteria
  cases hb : pyTruthy (.str s)
  · rw [if_neg (by simp [hb])]
  · rw [if_pos (by simp [hb])]
    simp [h]

/-! ## Claims -/

/-- **C7.** `parse_date` parses `"Month DD, YYYY"` strings to `"YYYY-MM-DD"`
(`"January 5, 2021"` to `"2021-01-05"`); any nonempty string on which parsing
fails passes through unchanged; null/falsy input yields null; and it never
raises on a string input. (The claim's further assertion that it never raises
on *any* input is refuted by `c7_cex_nonstring_raises`.) -/
theorem c7_parse_date_contract :
    parse_date (.str "January 5, 2021") = .ok (.str "2021-01-05") ∧
    (∀ s : String, s ≠ "" → strptimeBdY s = none → parse_date (.str s) = .ok (.str s)) ∧
    parse_date PyVal.none = .ok PyVal.none ∧
    (∀ v, pyTruthy v = false → parse_date v = .ok PyVal.none) ∧
    (∀ s, isOkE (parse_date (.str s)) = true) := by
  refine ⟨rfl, ?_, rfl, ?_, ?_⟩
  · intro s hne hp
    have hd : s.data ≠ [] := by
      intro hnil
      apply hne
      cases s
      simp_all
    have hb : pyTruthy (.str s) = true := by
      cases hcs : s.data with
      | nil => exact absurd hcs hd
      | cons c cs => simp [pyTruthy, hcs]
    unfold parse_date
    rw [if_pos hb]
    simp [hp]
  · intro v hv
    unfold parse_date
    rw [if_neg (by simp [hv])]
  · intro s
    obtain ⟨w, hw⟩ := parse_date_str_ok s
    rw [hw]
    rfl

/-- **C7 counterexample.** The claim says `parse_date` never raises on any
input; on the truthy non-string input `1` the source reaches
`datetime.strptime(1, ...)`, whose TypeError is not caught by the
`except ValueError` handler, so `parse_date` raises. -/
theorem c7_cex_nonstring_raises : parse_date (.int 1) = .error .typeError := rfl

/-- Witness for `c7_parse_date_contract` at concrete inputs. -/
theorem c7_parse_date_contract_witness :
    parse_date (.str "05/01/2021") = .ok (.str "05/01/2021") ∧
    parse_date (.int 0) = .ok PyVal.none :=
  ⟨c7_parse_date_contract.2.1 "05/01/2021" (by decide) rfl,
   c7_parse_date_contract.2.2.2.1 (.int 0) rfl⟩

/-- **C8.** The criteria line scan: on the spec's example text, splitting for
`"Inclusion"` yields `"A\nB"` and for `"Exclusion"` yields `"C"`; when no line
contains the section marker `"Criteria:"`, both labels yield `None`; and
whenever the scan collects nothing, the result is `None`. -/
theorem c8_parse_criteria_scan :
    parse_criteria (.str "Inclusion Criteria:\nA\nB\nExclusion Criteria:\nC") "Inclusion" =
      .ok (.str "A\nB") ∧
    parse_criteria (.str "Inclusion Criteria:\nA\nB\nExclusion Criteria:\nC") "Exclusion" =
      .ok (.str "C") ∧
    (∀ s : String, (∀ line ∈ splitOnNl s.data, charsSub "Criteria:".data line = false) →
      parse_criteria (.str s) "Inclusion" = .ok PyVal.none ∧
      parse_criteria (.str s) "Exclusion" = .ok PyVal.none) ∧
    (∀ s t : String, criteriaLoop t.data (splitOnNl s.data) false [] = [] →
      parse_criteria (.str s) t = .ok PyVal.none) := by
  refine ⟨rfl, rfl, ?_, ?_⟩
  · intro s h
    constructor <;>
      exact parse_criteria_empty_sec s _ (by rw [criteriaLoop_no_marker _ _ _ h]; rfl)
  · intro s t h
    exact parse_criteria_empty_sec s t h

/-- Witness for `c8_parse_criteria_scan` on marker-free text. -/
theorem c8_parse_criteria_scan_witness :
    parse_criteria (.str "no markers here") "Inclusion" = .ok PyVal.none ∧
    parse_criteria (.str "no markers here") "Exclusion" = .ok PyVal.none :=
  c8_parse_criteria_scan.2.2.1 "no markers here" (by decide)

/-- **C5 (amended).** A candidate that is not a mapping, or whose
`protocolSection` or `derivedSection` value is not a mapping, extracts to
`None`. (The claim's further inclusion of "a mapping missing both section
mappings" is refuted by `c5_cex_missing_sections_record`: the missing
sections default to `{}`, which passes the dict check.) -/
theorem c5_malformed_returns_none :
    ∀ study, malformedCand study = true → structure_clinical_trial study = .ok PyVal.none := by
  intro study h
  cases study <;> try rfl
  case dict fs =>
    unfold structure_clinical_trial
    unfold malformedCand at h
    cases hp : dictGet fs "protocolSection" (.dict []) <;>
      cases hd : dictGet fs "derivedSection" (.dict []) <;>
        simp_all [isDict]

/-- **C5 counterexample.** A mapping missing both sections is *not* rejected:
`structure_clinical_trial {}` returns a full record, not `None`. -/
theorem c5_cex_missing_sections_record :
    structure_clinical_trial (.dict []) ≠ .ok PyVal.none ∧
    isOkE (structure_clinical_trial (.dict [])) = true := by
  constructor
  · intro h
    have h2 : structure_clinical_trial (.dict []) = .ok (.dict emptyFs) := rfl
    rw [h2] at h
    exact PyVal.noConfusion (Except.ok.inj h)
  · rfl

/-- Witness for `c5_malformed_returns_none` at a concrete malformed input. -/
theorem c5_malformed_returns_none_witness :
    structure_clinical_trial (.dict [("protocolSection", .int 3)]) = .ok PyVal.none :=
  c5_malformed_returns_none _ rfl

/-- **C9 (amended).** Locations handling of the extractor: a list-valued
locations module contributes exactly the dict-shaped candidates (each through
`locFilter`/`locEntry`), in order; a bare-string locations value becomes a
single entry with that string as facility and null city/country; a dict-shaped
candidate whose facility is a nested mapping contributes the mapping's `name`;
and every non-mapping candidate is skipped. (The claim's further assertion
that mapping candidates *without a facility reference* are also skipped is
refuted by `c9_cex_facilityless_not_skipped`.) -/
theorem c9_locations_handling :
    (∀ l : List PyVal,
      resultField (structure_clinical_trial (mkLocStudy (.list l))) "locations" =
        .list (l.filterMap locFilter)) ∧
    (∀ s : String,
      resultField (structure_clinical_trial (mkLocStudy (.str s))) "locations" =
        .list [.dict [("facility", .str s), ("city", PyVal.none), ("country", PyVal.none)]]) ∧
    (∀ lfs ffs : List (String × PyVal),
      dictGet lfs "facility" PyVal.none = .dict ffs →
      locEntry lfs = .dict [("facility", dictGet ffs "name" PyVal.none),
        ("city", dictGet lfs "city" PyVal.none),
        ("country", dictGet lfs "country" PyVal.none)]) ∧
    (∀ v, isDict v = false → locFilter v = none) := by
  refine ⟨fun l => rfl, fun s => rfl, ?_, ?_⟩
  · intro lfs ffs h
    unfold locEntry
    rw [h]
  · intro v hv
    cases v <;> first
      | rfl
      | simp [isDict] at hv

/-- **C9 counterexample.** A mapping-shaped location candidate with no
facility reference is *not* skipped: it yields an entry with a null facility. -/
theorem c9_cex_facilityless_not_skipped :
    resultField (structure_clinical_trial (mkLocStudy (.list [.dict [("city", .str "X")]])))
      "locations" =
    .list [.dict [("facility", PyVal.none), ("city", .str "X"), ("country", PyVal.none)]] := rfl

/-- Witness for `c9_locations_handling` at a concrete nested-facility entry. -/
theorem c9_locations_handling_witness :
    locEntry [("facility", .dict [("name", .str "General Hospital")]), ("city", .str "Boston")] =
      .dict [("facility", .str "General Hospital"), ("city", .str "Boston"),
             ("country", PyVal.none)] :=
  (c9_locations_handling.2.2.1
    [("facility", .dict [("name", .str "General Hospital")]), ("city", .str "Boston")]
    [("name", .str "General Hospital")] rfl).trans rfl

/-- **C1 (code bug).** On five candidates of which two are malformed
(non-mapping strings), `structure_data` returns five entries, two of them the
`None` extraction results: the comprehension's filter `if study is not None`
drops `None` *inputs*, not failed extractions, so the output is not the
claimed three records. (`app.py` line 344 applies the missing second filter,
showing the intended behavior.) -/
theorem c1_structure_data_keeps_failed_extractions :
    (structure_data [.str "m1", .dict [], .str "m2", .dict [], .dict []]).map
      (fun l => (l.length, l.countP PyVal.isNone)) = .ok (5, 2) := rfl

/-! ## Pagination lemmas -/

theorem dictSet_lookup_self (fs : List (String × PyVal)) (k : String) (v : PyVal) :
    (dictSet fs k v).lookup k = some v := by
  induction fs with
  | nil => simp [dictSet, List.lookup]
  | cons kv rest ih =>
    obtain ⟨k', v'⟩ := kv
    by_cases h : k' = k
    · subst h
      simp [dictSet, List.lookup]
    · have hbeq : (k == k') = false := by
        simp only [beq_eq_false_iff_ne]
        exact Ne.symm h
      simp [dictSet, h, List.lookup, hbeq, ih]

theorem goodPage_status (r : Resp) (h : goodPage r = true) : r.status = 200 := by
  simp only [goodPage, Bool.and_eq_true] at h
  simpa using h.1

theorem getStudies_good (r : Resp) (hgp : goodPage r = true) (acc : List PyVal) :
    getStudies r.body acc = .ok (acc ++ pageStudies r) := by
  simp only [goodPage, Bool.and_eq_true] at hgp
  obtain ⟨-, h2⟩ := hgp
  cases hs : r.body.lookup "studies" with
  | none => simp [getStudies, hs, pageStudies]
  | some v =>
    rw [hs] at h2
    cases v with
    | list l => simp [getStudies, hs, pyIter, okBind, pageStudies]
    | none => simp at h2
    | bool b => simp at h2
    | int n => simp at h2
    | str s2 => simp at h2
    | dict dfs => simp at h2

/-- One iteration of the pagination loop on a 200-status page. -/
theorem fetchGo_step_ok (r : Resp) (rest : List Resp)
    (params : List (String × PyVal)) (acc : List PyVal) (total : PyVal)
    (trace : List (List (String × PyVal))) (acc2 : List PyVal)
    (hst : r.status = 200) (hacc : getStudies r.body acc = .ok acc2) :
    fetchGo (r :: rest) params acc total trace =
      match r.body.lookup "nextPageToken" with
      | some tok =>
        fetchGo rest (dictSet params "pageToken" tok) acc2
          (match r.body.lookup "totalCount" with
           | some v => v
           | none => total) (trace ++ [params])
      | none =>
        (trace ++ [params],
         .ok (acc2,
           match r.body.lookup "totalCount" with
           | some v => v
           | none => total)) := by
  rw [fetchGo, if_pos hst, hacc]

theorem fetchGo_good :
    ∀ resps, goodPages resps = true →
      ∀ params acc total trace,
        fetchGo resps params acc total trace =
          (trace ++ reqTrace params resps,
           .ok (acc ++ concatStudies resps, lastTotal resps total)) := by
  intro resps
  induction resps with
  | nil => intro h; simp [goodPages] at h
  | cons r rest ih =>
    intro h params acc total trace
    cases rest with
    | nil =>
      have hg : goodPage r = true ∧ (r.body.lookup "nextPageToken").isNone = true := by
        simpa [goodPages] using h
      have hst := goodPage_status r hg.1
      have htok : r.body.lookup "nextPageToken" = none := by
        simpa [Option.isNone_iff_eq_none] using hg.2
      rw [fetchGo_step_ok r [] params acc total trace (acc ++ pageStudies r) hst
        (getStudies_good r hg.1 acc)]
      simp [htok, reqTrace, concatStudies, lastTotal]
    | cons r2 rest' =>
      have hg : goodPage r = true ∧ (r.body.lookup "nextPageToken").isSome = true ∧
          goodPages (r2 :: rest') = true := by
        simpa [goodPages, and_assoc] using h
      obtain ⟨hgp, htoks, hrest⟩ := hg
      obtain ⟨tok, htok⟩ := Option.isSome_iff_exists.mp htoks
      have hst := goodPage_status r hgp
      rw [fetchGo_step_ok r (r2 :: rest') params acc total trace (acc ++ pageStudies r) hst
        (getStudies_good r hgp acc)]
      simp only [htok]
      rw [ih hrest]
      have hreq : reqTrace params (r :: r2 :: rest') =
          params :: reqTrace (dictSet params "pageToken" tok) (r2 :: rest') := by
        rw [reqTrace, htok]
      rw [hreq]
      simp [concatStudies, lastTotal, List.append_assoc]

theorem reqTrace_length :
    ∀ resps, goodPages resps = true → ∀ params,
      (reqTrace params resps).length = resps.length := by
  intro resps
  induction resps with
  | nil => intro h; simp [goodPages] at h
  | cons r rest ih =>
    intro h params
    cases rest with
    | nil =>
      have hg : goodPage r = true ∧ (r.body.lookup "nextPageToken").isNone = true := by
        simpa [goodPages] using h
      have htok : r.body.lookup "nextPageToken" = none := by
        simpa [Option.isNone_iff_eq_none] using hg.2
      simp [reqTrace, htok]
    | cons r2 rest' =>
      have hg : goodPage r = true ∧ (r.body.lookup "nextPageToken").isSome = true ∧
          goodPages (r2 :: rest') = true := by
        simpa [goodPages, and_assoc] using h
      obtain ⟨-, htoks, hrest⟩ := hg
      obtain ⟨tok, htok⟩ := Option.isSome_iff_exists.mp htoks
      have hreq : reqTrace params (r :: r2 :: rest') =
          params :: reqTrace (dictSet params "pageToken" tok) (r2 :: rest') := by
        rw [reqTrace, htok]
      rw [hreq]
      simp [ih hrest]

theorem reqTrace_token :
    ∀ resps, goodPages resps = true → ∀ params i
      (h1 : i + 1 < (reqTrace params resps).length) (h2 : i < resps.length),
      ((reqTrace params resps).get ⟨i + 1, h1⟩).lookup "pageToken" =
        ((resps.get ⟨i, h2⟩).body).lookup "nextPageToken" := by
  intro resps
  induction resps with
  | nil => intro h; simp [goodPages] at h
  | cons r rest ih =>
    intro h params i h1 h2
    cases rest with
    | nil =>
      exfalso
      have hg : goodPage r = true ∧ (r.body.lookup "nextPageToken").isNone = true := by
        simpa [goodPages] using h
      have htok : r.body.lookup "nextPageToken" = none := by
        simpa [Option.isNone_iff_eq_none] using hg.2
      rw [show reqTrace params [r] = [params] by simp [reqTrace, htok]] at h1
      simp at h1
    | cons r2 rest' =>
      have hg : goodPage r = true ∧ (r.body.lookup "nextPageToken").isSome = true ∧
          goodPages (r2 :: rest') = true := by
        simpa [goodPages, and_assoc] using h
      obtain ⟨-, htoks, hrest⟩ := hg
      obtain ⟨tok, htok⟩ := Option.isSome_iff_exists.mp htoks
      cases i with
      | zero =>
        have hr2 : ∃ tl, reqTrace (dictSet params "pageToken" tok) (r2 :: rest') =
            dictSet params "pageToken" tok :: tl := ⟨_, rfl⟩
        obtain ⟨tl, htl⟩ := hr2
        simp [reqTrace, htok, htl, dictSet_lookup_self]
      | succ j =>
        have hreq : reqTrace params (r :: r2 :: rest') =
            params :: reqTrace (dictSet params "pageToken" tok) (r2 :: rest') := by
          rw [reqTrace, htok]
        revert h1
        rw [hreq]
        intro h1
        have h1' : j + 1 < (reqTrace (dictSet params "pageToken" tok) (r2 :: rest')).length := by
          simpa using h1
        have h2' : j < (r2 :: rest').length := by
          simpa using h2
        have hrec := ih hrest (dictSet params "pageToken" tok) j h1' h2'
        simpa using hrec

theorem lastTotal_getLast :
    ∀ resps r t c, resps.getLast? = some r → (r.body).lookup "totalCount" = some c →
      lastTotal resps t = c := by
  intro resps
  induction resps with
  | nil => intro r t c h _; simp at h
  | cons r0 rest ih =>
    intro r t c hlast hc
    cases rest with
    | nil =>
      have : r0 = r := by simpa using hlast
      subst this
      simp [lastTotal, hc]
    | cons r1 rest' =>
      have h2 : (r1 :: rest').getLast? = some r := by
        simpa [List.getLast?_cons_cons] using hlast
      simp only [lastTotal, List.foldl_cons]
      exact ih r _ c h2 hc

theorem lastTotal_none :
    ∀ resps t, (∀ r ∈ resps, (r.body).lookup "totalCount" = none) → lastTotal resps t = t := by
  intro resps
  induction resps with
  | nil => intro t _; rfl
  | cons r0 rest ih =>
    intro t h
    have h0 := h r0 (List.mem_cons_self _ _)
    simp only [lastTotal, List.foldl_cons, h0]
    exact ih t (fun r hr => h r (List.mem_cons_of_mem _ hr))

/-- **C3.** For a nonempty sequence of 200-status pages in which each page but
the last carries a `nextPageToken` and the last carries none (`goodPages`),
`fetch_studies` succeeds with the concatenation, in page order, of all pages'
`studies` records (pages lacking the key contribute nothing) and the last-seen
`totalCount` (starting from 0); it issues exactly one request per page, the
first with the given parameters and each subsequent one with the previous
response's token as the `pageToken` parameter; if the last page reports a
total, that is the returned total, and if no page reports one the total is 0 —
all regardless of the number of pages. -/
theorem c3_fetch_studies_pagination
    (params p : List (String × PyVal)) (resps : List Resp)
    (hn : normalizeParams params = .ok p)
    (hg : goodPages resps = true) :
    (fetch_studies params resps).2 = .ok (concatStudies resps, lastTotal resps (.int 0)) ∧
    (fetch_studies params resps).1 = reqTrace p resps ∧
    (fetch_studies params resps).1.length = resps.length ∧
    (∀ i (h1 : i + 1 < (fetch_studies params resps).1.length) (h2 : i < resps.length),
      ((fetch_studies params resps).1.get ⟨i + 1, h1⟩).lookup "pageToken" =
        ((resps.get ⟨i, h2⟩).body).lookup "nextPageToken") ∧
    (∀ r c, resps.getLast? = some r → (r.body).lookup "totalCount" = some c →
      (fetch_studies params resps).2 = .ok (concatStudies resps, c)) ∧
    ((∀ r ∈ resps, (r.body).lookup "totalCount" = none) →
      (fetch_studies params resps).2 = .ok (concatStudies resps, .int 0)) := by
  have hfs : fetch_studies params resps =
      (reqTrace p resps, .ok (concatStudies resps, lastTotal resps (.int 0))) := by
    unfold fetch_studies
    rw [hn]
    have := fetchGo_good resps hg p [] (.int 0) []
    simpa using this
  have h1s : (fetch_studies params resps).1 = reqTrace p resps := by rw [hfs]
  have h2s : (fetch_studies params resps).2 =
      .ok (concatStudies resps, lastTotal resps (.int 0)) := by rw [hfs]
  refine ⟨h2s, h1s, ?_, ?_, ?_, ?_⟩
  · rw [h1s]
    exact reqTrace_length resps hg p
  · intro i h1 h2
    have h1' : i + 1 < (reqTrace p resps).length := h1s ▸ h1
    have hcast := List.get_of_eq h1s ⟨i + 1, h1⟩
    rw [hcast]
    exact reqTrace_token resps hg p i h1' h2
  · intro r c hl hc
    rw [h2s, lastTotal_getLast resps r (.int 0) c hl hc]
  · intro hnone
    rw [h2s, lastTotal_none resps (.int 0) hnone]

/-- Witness for `c3_fetch_studies_pagination` on the three-page fixture. -/
theorem c3_fetch_studies_pagination_witness :
    (fetch_studies [] c3Pages).2 = .ok ([.int 1, .int 2, .int 3], .int 3) := by
  have h := (c3_fetch_studies_pagination [] [] c3Pages rfl (by decide)).1
  rw [h]
  rfl

theorem fetchGo_fail :
    ∀ resps, reachesFailure resps = true → ∀ rf, firstFailure resps = some rf →
      ∀ params acc total trace,
        (fetchGo resps params acc total trace).2 =
          .error (.exception ("API Error: " ++ toString rf.status ++ "\n" ++ rf.text)) := by
  intro resps
  induction resps with
  | nil => intro h; simp [reachesFailure] at h
  | cons r rest ih =>
    intro h rf hf params acc total trace
    by_cases hst : r.status = 200
    · have h2 : goodPage r = true ∧ (r.body.lookup "nextPageToken").isSome = true ∧
          reachesFailure rest = true := by
        simpa [reachesFailure, hst, and_assoc] using h
      obtain ⟨hgp, htoks, hrest⟩ := h2
      obtain ⟨tok, htok⟩ := Option.isSome_iff_exists.mp htoks
      have hf2 : firstFailure rest = some rf := by
        simpa [firstFailure, hst] using hf
      have hstud := hgp
      simp only [goodPage, Bool.and_eq_true] at hstud
      cases hs : r.body.lookup "studies" with
      | none =>
        simp only [fetchGo, hst, if_true, getStudies, hs, htok, okBind]
        exact ih hrest rf hf2 _ _ _ _
      | some v =>
        rw [hs] at hstud
        cases v with
        | list l =>
          simp only [fetchGo, hst, if_true, getStudies, hs, pyIter, okBind, htok]
          exact ih hrest rf hf2 _ _ _ _
        | none => simp at hstud
        | bool b => simp at hstud
        | int n => simp at hstud
        | str s2 => simp at hstud
        | dict dfs => simp at hstud
    · have hrf : rf = r := by
        have := hf
        simp [firstFailure, hst] at this
        exact this.symm
      subst hrf
      simp [fetchGo, hst]

/-- **C4.** If the page sequence reaches a non-200 response (every earlier
page is good and carries a token), `fetch_studies` aborts with an error whose
message carries the failing status code and response body text, and returns no
records at all: no `.ok` result surfaces, so records accumulated from earlier
pages are discarded. -/
theorem c4_fetch_studies_abort
    (params p : List (String × PyVal)) (resps : List Resp) (rf : Resp)
    (hn : normalizeParams params = .ok p)
    (hr : reachesFailure resps = true)
    (hf : firstFailure resps = some rf) :
    (fetch_studies params resps).2 =
      .error (.exception ("API Error: " ++ toString rf.status ++ "\n" ++ rf.text)) ∧
    ∀ recs total, (fetch_studies params resps).2 ≠ .ok (recs, total) := by
  have h2 : (fetch_studies params resps).2 =
      .error (.exception ("API Error: " ++ toString rf.status ++ "\n" ++ rf.text)) := by
    unfold fetch_studies
    rw [hn]
    exact fetchGo_fail resps hr rf hf p [] (.int 0) []
  refine ⟨h2, ?_⟩
  intro recs total hok
  rw [h2] at hok
  exact Except.noConfusion hok

/-- Witness for `c4_fetch_studies_abort`: page 2 of 3 fails with HTTP 500. -/
theorem c4_fetch_studies_abort_witness :
    (fetch_studies [] c4Pages).2 = .error (.exception "API Error: 500\nboom") := by
  have h := (c4_fetch_studies_abort [] [] c4Pages ⟨500, "boom", []⟩ rfl (by decide) rfl).1
  rw [h]
  rfl

/-! ## Field Extractor lemmas -/

theorem pure_eq_ok {ε α : Type} {a v : α} : (pure a : Except ε α) = Except.ok v ↔ a = v := by
  constructor
  · intro h
    exact Except.ok.inj h
  · intro h
    rw [h]
    rfl

/-- Success of `structureBody` decomposes into success of every field in
source order, and pins the result to the dict literal with the locations
update applied. -/
theorem structureBody_ok_decomp (ps ds : List (String × PyVal)) (v : PyVal)
    (h : structureBody ps ds = .ok v) :
    ∃ a1 a2 a3 a4 a5 a6 a7 a8 a9 a10 a11 a12 a13 a14 a15 a16 a17 a18 lv,
      f_nct_id ps = .ok a1 ∧ f_title ps = .ok a2 ∧ f_brief_summary ps = .ok a3 ∧
      f_detailed_description ps = .ok a4 ∧ f_status ps = .ok a5 ∧
      f_start_date ps = .ok a6 ∧ f_end_date ps = .ok a7 ∧
      f_eligibility (modGet ps "eligibilityModule") = .ok a8 ∧
      f_inclusion_criteria (modGet ps "eligibilityModule") = .ok a9 ∧
      f_exclusion_criteria (modGet ps "eligibilityModule") = .ok a10 ∧
      pyGetN (modGet ps "eligibilityModule") "healthyVolunteers" = .ok a11 ∧
      pyGetN (modGet ps "eligibilityModule") "sex" = .ok a12 ∧
      pyGetN (modGet ps "eligibilityModule") "minimumAge" = .ok a13 ∧
      pyGetN (modGet ps "eligibilityModule") "maximumAge" = .ok a14 ∧
      f_interventions ps = .ok a15 ∧ f_outcomes ps = .ok a16 ∧ f_sponsor ps = .ok a17 ∧
      f_publications ds = .ok a18 ∧
      pyGet (modGet ps "contactsLocationsModule") "locations" (.list []) = .ok lv ∧
      v = (match lv with
        | PyVal.list l => PyVal.dict (dictSet (mkBase a1 a2 a3 a4 a5 a6 a7 a8 a9 a10 a11
            a12 a13 a14 a15 a16 a17 a18) "locations" (.list (l.filterMap locFilter)))
        | PyVal.str s => PyVal.dict (dictSet (mkBase a1 a2 a3 a4 a5 a6 a7 a8 a9 a10 a11
            a12 a13 a14 a15 a16 a17 a18) "locations"
            (.list [.dict [("facility", .str s), ("city", PyVal.none),
              ("country", PyVal.none)]]))
        | _ => PyVal.dict (mkBase a1 a2 a3 a4 a5 a6 a7 a8 a9 a10 a11 a12 a13 a14 a15
            a16 a17 a18)) := by
  unfold structureBody at h
  simp only [exbind_eq_ok] at h
  obtain ⟨a1, h1, a2, h2, a3, h3, a4, h4, a5, h5, a6, h6, a7, h7, a8, h8, a9, h9,
    a10, h10, a11, h11, a12, h12, a13, h13, a14, h14, a15, h15, a16, h16, a17, h17,
    a18, h18, lv, hlv, hfin⟩ := h
  refine ⟨a1, a2, a3, a4, a5, a6, a7, a8, a9, a10, a11, a12, a13, a14, a15, a16, a17, a18,
    lv, h1, h2, h3, h4, h5, h6, h7, h8, h9, h10, h11, h12, h13, h14, h15, h16, h17, h18,
    hlv, ?_⟩
  cases lv <;> exact (pure_eq_ok.mp hfin).symm

theorem clean_html_ok_str (v w : PyVal) (h : clean_html v = .ok w) : ∃ s, w = .str s := by
  cases v with
  | str s => exact ⟨stripTagsStr s, (Except.ok.inj h).symm⟩
  | none => exact Except.noConfusion h
  | bool b => exact Except.noConfusion h
  | int n => exact Except.noConfusion h
  | list xs => exact Except.noConfusion h
  | dict fs => exact Except.noConfusion h

theorem f_brief_summary_ok_str (ps : List (String × PyVal)) (w : PyVal)
    (h : f_brief_summary ps = .ok w) : ∃ s, w = .str s := by
  unfold f_brief_summary at h
  rw [exbind_eq_ok] at h
  obtain ⟨a, -, h2⟩ := h
  exact clean_html_ok_str a w h2

theorem f_detailed_description_ok_str (ps : List (String × PyVal)) (w : PyVal)
    (h : f_detailed_description ps = .ok w) : ∃ s, w = .str s := by
  unfold f_detailed_description at h
  rw [exbind_eq_ok] at h
  obtain ⟨a, -, h2⟩ := h
  exact clean_html_ok_str a w h2

theorem f_eligibility_ok_shape (em : PyVal) (w : PyVal) (h : f_eligibility em = .ok w) :
    ∃ efs, w = .dict efs ∧ ∃ s, dictGet efs "criteria" PyVal.none = .str s := by
  unfold f_eligibility at h
  simp only [exbind_eq_ok] at h
  obtain ⟨x, -, c, hcc, hv, -, sx, -, gb, -, mn, -, mx, -, hfin⟩ := h
  obtain ⟨s, hs⟩ := clean_html_ok_str x c hcc
  refine ⟨_, (pure_eq_ok.mp hfin).symm, s, ?_⟩
  rw [show dictGet [("criteria", c), ("healthy_volunteers", hv), ("sex", sx),
    ("gender_based", gb), ("minimum_age", mn), ("maximum_age", mx)] "criteria" PyVal.none = c
    from rfl, hs]

/-- A successful extraction on a dict candidate pins down dict sections and a
successful body. -/
theorem structure_dict_ok_body (sfs fs : List (String × PyVal))
    (h : structure_clinical_trial (.dict sfs) = .ok (.dict fs)) :
    ∃ ps ds, dictGet sfs "protocolSection" (.dict []) = .dict ps ∧
      dictGet sfs "derivedSection" (.dict []) = .dict ds ∧
      structureBody ps ds = .ok (.dict fs) := by
  simp only [structure_clinical_trial] at h
  cases hp : dictGet sfs "protocolSection" (.dict []) <;>
    cases hd : dictGet sfs "derivedSection" (.dict []) <;>
      rw [hp, hd] at h <;>
      first
        | exact PyVal.noConfusion (Except.ok.inj h)
        | exact ⟨_, _, rfl, rfl, h⟩

/-- The three text-bearing fields of a successful body, tied to their field
extractors. -/
theorem structureBody_fields (ps ds fs : List (String × PyVal))
    (h : structureBody ps ds = .ok (.dict fs)) :
    ∃ a3 a4 a8,
      f_brief_summary ps = .ok a3 ∧ f_detailed_description ps = .ok a4 ∧
      f_eligibility (modGet ps "eligibilityModule") = .ok a8 ∧
      (dictGet fs "brief_summary" PyVal.none = a3 ∧
       dictGet fs "detailed_description" PyVal.none = a4 ∧
       dictGet fs "eligibility" PyVal.none = a8) := by
  obtain ⟨a1, a2, a3, a4, a5, a6, a7, a8, a9, a10, a11, a12, a13, a14, a15, a16, a17, a18,
    lv, -, -, h3, h4, -, -, -, h8, -, -, -, -, -, -, -, -, -, -, -, hv⟩ :=
    structureBody_ok_decomp ps ds _ h
  refine ⟨a3, a4, a8, h3, h4, h8, ?_⟩
  cases lv <;>
    (have hfs := PyVal.dict.inj hv
     subst hfs
     exact ⟨rfl, rfl, rfl⟩)

theorem f_nct_id_wellshaped (ps : List (String × PyVal))
    (hid : isDict (modGet ps "identificationModule") = true) :
    ∃ w, f_nct_id ps = .ok w := by
  unfold f_nct_id
  cases him : modGet ps "identificationModule" with
  | dict m => exact ⟨_, rfl⟩
  | none => rw [him] at hid; exact Bool.noConfusion hid
  | bool b => rw [him] at hid; exact Bool.noConfusion hid
  | int n => rw [him] at hid; exact Bool.noConfusion hid
  | str s => rw [him] at hid; exact Bool.noConfusion hid
  | list xs => rw [him] at hid; exact Bool.noConfusion hid

theorem f_title_wellshaped (ps : List (String × PyVal))
    (hid : isDict (modGet ps "identificationModule") = true) :
    ∃ w, f_title ps = .ok w := by
  unfold f_title
  cases him : modGet ps "identificationModule" with
  | dict m => exact ⟨_, rfl⟩
  | none => rw [him] at hid; exact Bool.noConfusion hid
  | bool b => rw [him] at hid; exact Bool.noConfusion hid
  | int n => rw [him] at hid; exact Bool.noConfusion hid
  | str s => rw [him] at hid; exact Bool.noConfusion hid
  | list xs => rw [him] at hid; exact Bool.noConfusion hid

theorem f_brief_summary_wellshaped (ps : List (String × PyVal))
    (dm : List (String × PyVal)) (hdm : modGet ps "descriptionModule" = .dict dm)
    (hb : isStr (dictGet dm "briefSummary" (.str "")) = true) :
    ∃ w, f_brief_summary ps = .ok w := by
  unfold f_brief_summary
  simp only [hdm, pyGet, okBind]
  cases hv : dictGet dm "briefSummary" (.str "") with
  | str s => exact ⟨_, rfl⟩
  | none => rw [hv] at hb; exact Bool.noConfusion hb
  | bool b => rw [hv] at hb; exact Bool.noConfusion hb
  | int n => rw [hv] at hb; exact Bool.noConfusion hb
  | list xs => rw [hv] at hb; exact Bool.noConfusion hb
  | dict dfs => rw [hv] at hb; exact Bool.noConfusion hb

theorem f_detailed_description_wellshaped (ps : List (String × PyVal))
    (dm : List (String × PyVal)) (hdm : modGet ps "descriptionModule" = .dict dm)
    (hb : isStr (dictGet dm "detailedDescription" (.str "")) = true) :
    ∃ w, f_detailed_description ps = .ok w := by
  unfold f_detailed_description
  simp only [hdm, pyGet, okBind]
  cases hv : dictGet dm "detailedDescription" (.str "") with
  | str s => exact ⟨_, rfl⟩
  | none => rw [hv] at hb; exact Bool.noConfusion hb
  | bool b => rw [hv] at hb; exact Bool.noConfusion hb
  | int n => rw [hv] at hb; exact Bool.noConfusion hb
  | list xs => rw [hv] at hb; exact Bool.noConfusion hb
  | dict dfs => rw [hv] at hb; exact Bool.noConfusion hb

theorem f_status_wellshaped (ps : List (String × PyVal))
    (sm : List (String × PyVal)) (hsm : modGet ps "statusModule" = .dict sm) :
    ∃ w, f_status ps = .ok w := by
  unfold f_status
  rw [hsm]
  exact ⟨_, rfl⟩

theorem parse_date_ok_strOrFalsy (v : PyVal) (h : strOrFalsy v = true) :
    ∃ w, parse_date v = .ok w := by
  cases v with
  | str s => exact parse_date_str_ok s
  | none => exact ⟨_, rfl⟩
  | bool b =>
    have hb : pyTruthy (.bool b) = false := by simpa [strOrFalsy] using h
    exact ⟨PyVal.none, by unfold parse_date; rw [if_neg (by simp [hb])]⟩
  | int n =>
    have hb : pyTruthy (.int n) = false := by simpa [strOrFalsy] using h
    exact ⟨PyVal.none, by unfold parse_date; rw [if_neg (by simp [hb])]⟩
  | list xs =>
    have hb : pyTruthy (.list xs) = false := by simpa [strOrFalsy] using h
    exact ⟨PyVal.none, by unfold parse_date; rw [if_neg (by simp [hb])]⟩
  | dict dfs =>
    have hb : pyTruthy (.dict dfs) = false := by simpa [strOrFalsy] using h
    exact ⟨PyVal.none, by unfold parse_date; rw [if_neg (by simp [hb])]⟩

theorem f_start_date_wellshaped (ps sm sds : List (String × PyVal))
    (hsm : modGet ps "statusModule" = .dict sm)
    (hsds : dictGet sm "startDateStruct" (.dict []) = .dict sds)
    (hdate : strOrFalsy (dictGet sds "date" PyVal.none) = true) :
    ∃ w, f_start_date ps = .ok w := by
  obtain ⟨w, hw⟩ := parse_date_ok_strOrFalsy _ hdate
  refine ⟨w, ?_⟩
  unfold f_start_date
  simp only [hsm, pyGet, hsds, okBind, pyGetN]
  exact hw

theorem f_end_date_wellshaped (ps sm cds : List (String × PyVal))
    (hsm : modGet ps "statusModule" = .dict sm)
    (hcds : dictGet sm "completionDateStruct" (.dict []) = .dict cds)
    (hdate : strOrFalsy (dictGet cds "date" PyVal.none) = true) :
    ∃ w, f_end_date ps = .ok w := by
  obtain ⟨w, hw⟩ := parse_date_ok_strOrFalsy _ hdate
  refine ⟨w, ?_⟩
  unfold f_end_date
  simp only [hsm, pyGet, hcds, okBind, pyGetN]
  exact hw

theorem f_eligibility_wellshaped (em : List (String × PyVal))
    (hc : isStr (dictGet em "eligibilityCriteria" (.str "")) = true) :
    ∃ w, f_eligibility (.dict em) = .ok w := by
  unfold f_eligibility
  simp only [pyGet, pyGetN, okBind]
  cases hv : dictGet em "eligibilityCriteria" (.str "") with
  | str s => exact ⟨_, rfl⟩
  | none => rw [hv] at hc; exact Bool.noConfusion hc
  | bool b => rw [hv] at hc; exact Bool.noConfusion hc
  | int n => rw [hv] at hc; exact Bool.noConfusion hc
  | list xs => rw [hv] at hc; exact Bool.noConfusion hc
  | dict dfs => rw [hv] at hc; exact Bool.noConfusion hc

theorem parse_criteria_str_ok (s t : String) : ∃ w, parse_criteria (.str s) t = .ok w := by
  unfold parse_criteria
  cases hb : pyTruthy (.str s)
  · rw [if_neg (by simp [hb])]
    exact ⟨_, rfl⟩
  · rw [if_pos (by simp [hb])]
    exact ⟨_, rfl⟩

theorem f_inclusion_criteria_wellshaped (em : List (String × PyVal))
    (hc : isStr (dictGet em "eligibilityCriteria" (.str "")) = true) :
    ∃ w, f_inclusion_criteria (.dict em) = .ok w := by
  unfold f_inclusion_criteria
  simp only [pyGet, okBind]
  cases hv : dictGet em "eligibilityCriteria" (.str "") with
  | str s => exact parse_criteria_str_ok s "Inclusion"
  | none => rw [hv] at hc; exact Bool.noConfusion hc
  | bool b => rw [hv] at hc; exact Bool.noConfusion hc
  | int n => rw [hv] at hc; exact Bool.noConfusion hc
  | list xs => rw [hv] at hc; exact Bool.noConfusion hc
  | dict dfs => rw [hv] at hc; exact Bool.noConfusion hc

theorem f_exclusion_criteria_wellshaped (em : List (String × PyVal))
    (hc : isStr (dictGet em "eligibilityCriteria" (.str "")) = true) :
    ∃ w, f_exclusion_criteria (.dict em) = .ok w := by
  unfold f_exclusion_criteria
  simp only [pyGet, okBind]
  cases hv : dictGet em "eligibilityCriteria" (.str "") with
  | str s => exact parse_criteria_str_ok s "Exclusion"
  | none => rw [hv] at hc; exact Bool.noConfusion hc
  | bool b => rw [hv] at hc; exact Bool.noConfusion hc
  | int n => rw [hv] at hc; exact Bool.noConfusion hc
  | list xs => rw [hv] at hc; exact Bool.noConfusion hc
  | dict dfs => rw [hv] at hc; exact Bool.noConfusion hc

theorem exMapM_ok (f : PyVal → Except PyErr PyVal) :
    ∀ l, (∀ x ∈ l, ∃ y, f x = .ok y) → ∃ ys, exMapM f l = .ok ys := by
  intro l
  induction l with
  | nil => intro _; exact ⟨[], rfl⟩
  | cons x rest ih =>
    intro h
    obtain ⟨y, hy⟩ := h x (List.mem_cons_self _ _)
    obtain ⟨ys, hys⟩ := ih (fun z hz => h z (List.mem_cons_of_mem _ hz))
    refine ⟨y :: ys, ?_⟩
    simp only [exMapM, hy, okBind, hys]

theorem f_interventions_wellshaped (ps am : List (String × PyVal))
    (ham : modGet ps "armsInterventionsModule" = .dict am)
    (hl : listOfDicts (dictGet am "interventions" (.list [])) = true) :
    ∃ w, f_interventions ps = .ok w := by
  unfold f_interventions
  simp only [ham, pyGet, okBind]
  cases hv : dictGet am "interventions" (.list []) with
  | list items =>
    rw [hv] at hl
    simp only [pyIter, okBind]
    have hitems : ∀ x ∈ items, ∃ y,
        (fun iv => (do
          let t ← pyGetN iv "type"
          let n ← pyGetN iv "name"
          let d ← pyGetN iv "description"
          return PyVal.dict [("type", t), ("name", n), ("description", d)] :
            Except PyErr PyVal)) x = .ok y := by
      intro x hx
      have hd : isDict x = true := by
        simp only [listOfDicts, List.all_eq_true] at hl
        exact hl x hx
      cases x with
      | dict xfs => exact ⟨_, rfl⟩
      | none => exact Bool.noConfusion hd
      | bool b => exact Bool.noConfusion hd
      | int n => exact Bool.noConfusion hd
      | str s => exact Bool.noConfusion hd
      | list xs => exact Bool.noConfusion hd
    obtain ⟨ys, hys⟩ := exMapM_ok _ items hitems
    refine ⟨.list ys, ?_⟩
    rw [hys, okBind]
    rfl
  | none => rw [hv] at hl; exact Bool.noConfusion hl
  | bool b => rw [hv] at hl; exact Bool.noConfusion hl
  | int n => rw [hv] at hl; exact Bool.noConfusion hl
  | str s => rw [hv] at hl; exact Bool.noConfusion hl
  | dict dfs => rw [hv] at hl; exact Bool.noConfusion hl

theorem measure_items_ok (items : List PyVal) (h : ∀ x ∈ items, isDict x = true) :
    ∃ ys, exMapM (fun o => pyGetN o "measure") items = .ok ys := by
  apply exMapM_ok
  intro x hx
  have hd := h x hx
  cases x with
  | dict xfs => exact ⟨_, rfl⟩
  | none => exact Bool.noConfusion hd
  | bool b => exact Bool.noConfusion hd
  | int n => exact Bool.noConfusion hd
  | str s => exact Bool.noConfusion hd
  | list xs => exact Bool.noConfusion hd

theorem f_outcomes_wellshaped (ps om : List (String × PyVal))
    (hom : modGet ps "outcomesModule" = .dict om)
    (hp : listOfDicts (dictGet om "primaryOutcomes" (.list [])) = true)
    (hs : listOfDicts (dictGet om "secondaryOutcomes" (.list [])) = true) :
    ∃ w, f_outcomes ps = .ok w := by
  unfold f_outcomes
  simp only [hom, pyGet, okBind]
  cases hpv : dictGet om "primaryOutcomes" (.list []) with
  | list pitems =>
    rw [hpv] at hp
    simp only [pyIter, okBind]
    have hpl : ∀ x ∈ pitems, isDict x = true := by
      simpa only [listOfDicts, List.all_eq_true] using hp
    obtain ⟨pys, hpys⟩ := measure_items_ok pitems hpl
    rw [hpys, okBind]
    cases hsv : dictGet om "secondaryOutcomes" (.list []) with
    | list sitems =>
      rw [hsv] at hs
      simp only [pyIter, okBind]
      have hsl : ∀ x ∈ sitems, isDict x = true := by
        simpa only [listOfDicts, List.all_eq_true] using hs
      obtain ⟨sys2, hsys⟩ := measure_items_ok sitems hsl
      rw [hsys, okBind]
      exact ⟨_, rfl⟩
    | none => rw [hsv] at hs; exact Bool.noConfusion hs
    | bool b => rw [hsv] at hs; exact Bool.noConfusion hs
    | int n => rw [hsv] at hs; exact Bool.noConfusion hs
    | str s2 => rw [hsv] at hs; exact Bool.noConfusion hs
    | dict dfs => rw [hsv] at hs; exact Bool.noConfusion hs
  | none => rw [hpv] at hp; exact Bool.noConfusion hp
  | bool b => rw [hpv] at hp; exact Bool.noConfusion hp
  | int n => rw [hpv] at hp; exact Bool.noConfusion hp
  | str s2 => rw [hpv] at hp; exact Bool.noConfusion hp
  | dict dfs => rw [hpv] at hp; exact Bool.noConfusion hp

theorem f_sponsor_wellshaped (ps scm ls : List (String × PyVal))
    (hscm : modGet ps "sponsorCollaboratorsModule" = .dict scm)
    (hls : dictGet scm "leadSponsor" (.dict []) = .dict ls) :
    ∃ w, f_sponsor ps = .ok w := by
  unfold f_sponsor
  simp only [hscm, pyGet, hls, okBind, pyGetN]
  exact ⟨_, rfl⟩

theorem f_publications_wellshaped (ds pm : List (String × PyVal))
    (hpm : modGet ds "publicationModule" = .dict pm)
    (hl : listOfDicts (dictGet pm "references" (.list [])) = true) :
    ∃ w, f_publications ds = .ok w := by
  unfold f_publications
  simp only [hpm, pyGet, okBind]
  cases hv : dictGet pm "references" (.list []) with
  | list items =>
    rw [hv] at hl
    simp only [pyIter, okBind]
    have hitems : ∀ x ∈ items, ∃ y,
        (fun r => (do
          let t ← pyGetN r "title"
          let c ← pyGetN r "citation"
          let p ← pyGetN r "pmid"
          return PyVal.dict [("title", t), ("citation", c), ("pmid", p)] :
            Except PyErr PyVal)) x = .ok y := by
      intro x hx
      have hd : isDict x = true := by
        simp only [listOfDicts, List.all_eq_true] at hl
        exact hl x hx
      cases x with
      | dict xfs => exact ⟨_, rfl⟩
      | none => exact Bool.noConfusion hd
      | bool b => exact Bool.noConfusion hd
      | int n => exact Bool.noConfusion hd
      | str s => exact Bool.noConfusion hd
      | list xs => exact Bool.noConfusion hd
    obtain ⟨ys, hys⟩ := exMapM_ok _ items hitems
    refine ⟨.list ys, ?_⟩
    rw [hys, okBind]
    rfl
  | none => rw [hv] at hl; exact Bool.noConfusion hl
  | bool b => rw [hv] at hl; exact Bool.noConfusion hl
  | int n => rw [hv] at hl; exact Bool.noConfusion hl
  | str s => rw [hv] at hl; exact Bool.noConfusion hl
  | dict dfs => rw [hv] at hl; exact Bool.noConfusion hl

theorem isDict_true (v : PyVal) (h : isDict v = true) : ∃ m, v = PyVal.dict m := by
  cases v with
  | dict m => exact ⟨m, rfl⟩
  | none => exact Bool.noConfusion h
  | bool b => exact Bool.noConfusion h
  | int n => exact Bool.noConfusion h
  | str s => exact Bool.noConfusion h
  | list xs => exact Bool.noConfusion h

theorem dictShaped_true (v : PyVal) (f : List (String × PyVal) → Bool)
    (h : dictShaped v f = true) : ∃ m, v = PyVal.dict m ∧ f m = true := by
  cases v with
  | dict m => exact ⟨m, rfl, h⟩
  | none => exact Bool.noConfusion h
  | bool b => exact Bool.noConfusion h
  | int n => exact Bool.noConfusion h
  | str s => exact Bool.noConfusion h
  | list xs => exact Bool.noConfusion h

/-- Under `innerWellShaped`, the extractor body succeeds with a dict record. -/
theorem structureBody_wellshaped (ps ds : List (String × PyVal))
    (h : innerWellShaped ps ds = true) :
    ∃ fs, structureBody ps ds = .ok (.dict fs) := by
  simp only [innerWellShaped, Bool.and_eq_true, and_assoc] at h
  obtain ⟨hid, hdm, hsm, hem, ham, hom, hscm, hclm, hpm⟩ := h
  obtain ⟨dm, hdmv, hdm2⟩ := dictShaped_true _ _ hdm
  simp only [Bool.and_eq_true] at hdm2
  obtain ⟨sm, hsmv, hsm2⟩ := dictShaped_true _ _ hsm
  simp only [Bool.and_eq_true] at hsm2
  obtain ⟨sds, hsdsv, hsds2⟩ := dictShaped_true _ _ hsm2.1
  obtain ⟨cds, hcdsv, hcds2⟩ := dictShaped_true _ _ hsm2.2
  obtain ⟨em, hemv, hem2⟩ := dictShaped_true _ _ hem
  obtain ⟨am, hamv, ham2⟩ := dictShaped_true _ _ ham
  obtain ⟨om, homv, hom2⟩ := dictShaped_true _ _ hom
  simp only [Bool.and_eq_true] at hom2
  obtain ⟨scm, hscmv, hscm2⟩ := dictShaped_true _ _ hscm
  obtain ⟨ls, hlsv⟩ := isDict_true _ hscm2
  obtain ⟨clm, hclmv⟩ := isDict_true _ hclm
  obtain ⟨pm, hpmv, hpm2⟩ := dictShaped_true _ _ hpm
  obtain ⟨w1, h1⟩ := f_nct_id_wellshaped ps hid
  obtain ⟨w2, h2⟩ := f_title_wellshaped ps hid
  obtain ⟨w3, h3⟩ := f_brief_summary_wellshaped ps dm hdmv hdm2.1
  obtain ⟨w4, h4⟩ := f_detailed_description_wellshaped ps dm hdmv hdm2.2
  obtain ⟨w5, h5⟩ := f_status_wellshaped ps sm hsmv
  obtain ⟨w6, h6⟩ := f_start_date_wellshaped ps sm sds hsmv hsdsv hsds2
  obtain ⟨w7, h7⟩ := f_end_date_wellshaped ps sm cds hsmv hcdsv hcds2
  obtain ⟨w8, h8⟩ := f_eligibility_wellshaped em hem2
  obtain ⟨w9, h9⟩ := f_inclusion_criteria_wellshaped em hem2
  obtain ⟨w10, h10⟩ := f_exclusion_criteria_wellshaped em hem2
  obtain ⟨w15, h15⟩ := f_interventions_wellshaped ps am hamv ham2
  obtain ⟨w16, h16⟩ := f_outcomes_wellshaped ps om homv hom2.1 hom2.2
  obtain ⟨w17, h17⟩ := f_sponsor_wellshaped ps scm ls hscmv hlsv
  obtain ⟨w18, h18⟩ := f_publications_wellshaped ds pm hpmv hpm2
  unfold structureBody
  simp only [hemv, h1, h2, h3, h4, h5, h6, h7, h8, h9, h10, h15, h16, h17, h18,
    hclmv, pyGet, pyGetN, okBind]
  cases hlv : dictGet clm "locations" (.list []) with
  | list l => exact ⟨_, rfl⟩
  | str s => exact ⟨_, rfl⟩
  | none => exact ⟨_, rfl⟩
  | bool b => exact ⟨_, rfl⟩
  | int n => exact ⟨_, rfl⟩
  | dict dfs => exact ⟨_, rfl⟩

/-- **C2 (amended).** On every candidate that is not a mapping, has non-mapping
sections, or whose nested modules and leaves have the expected types
(`wellShaped`), `structure_clinical_trial` terminates normally and returns
either a full record (a dict) or `None` — no exception. (The claim's further
assertion that this holds for *every* input, including nested modules or
leaves of unexpected type, is refuted by `c2_cex_nonstring_leaf_raises`.) -/
theorem c2_no_raise_when_well_shaped :
    ∀ study, wellShaped study = true →
      ∃ v, structure_clinical_trial study = .ok v ∧
        (v = PyVal.none ∨ ∃ fs, v = PyVal.dict fs) := by
  intro study h
  cases study with
  | dict sfs =>
    simp only [structure_clinical_trial]
    simp only [wellShaped] at h
    cases hp : dictGet sfs "protocolSection" (.dict []) <;>
      cases hd : dictGet sfs "derivedSection" (.dict []) <;>
        (try rw [hp] at h) <;> (try rw [hd] at h) <;>
        first
          | exact ⟨_, rfl, Or.inl rfl⟩
          | (obtain ⟨fs, hfs⟩ := structureBody_wellshaped _ _ h
             exact ⟨_, hfs, Or.inr ⟨fs, rfl⟩⟩)
  | none => exact ⟨_, rfl, Or.inl rfl⟩
  | bool b => exact ⟨_, rfl, Or.inl rfl⟩
  | int n => exact ⟨_, rfl, Or.inl rfl⟩
  | str s => exact ⟨_, rfl, Or.inl rfl⟩
  | list xs => exact ⟨_, rfl, Or.inl rfl⟩

/-- **C2 counterexample.** A well-formed candidate whose `briefSummary` leaf is
a non-string reaches `re.sub` on a non-string inside `clean_html` and raises
TypeError instead of returning a record or `None`. -/
theorem c2_cex_nonstring_leaf_raises :
    structure_clinical_trial
      (.dict [("protocolSection",
        .dict [("descriptionModule", .dict [("briefSummary", .int 5)])])]) =
      .error .typeError := rfl

/-- Witness for `c2_no_raise_when_well_shaped` at the empty dict. -/
theorem c2_no_raise_when_well_shaped_witness :
    wellShaped (.dict []) = true ∧ isOkE (structure_clinical_trial (.dict [])) = true := by
  constructor
  · rfl
  · obtain ⟨v, hv, -⟩ := c2_no_raise_when_well_shaped (.dict []) rfl
    rw [hv]
    rfl

/-- **C6 (amended).** Every successful extraction result is all-keys-present:
an `.ok` value of `structure_clinical_trial` is either `None` or a record
carrying exactly the `schemaKeys` in order — never a partially-keyed dict.
(The claim's further assertion that every well-formed candidate *returns* such
a record is refuted by `c6_cex_wellformed_raises`: extraction can raise on a
well-formed candidate.) -/
theorem c6_success_all_keys :
    ∀ study v, structure_clinical_trial study = .ok v →
      v = PyVal.none ∨ ∃ fs, v = PyVal.dict fs ∧ fs.map Prod.fst = schemaKeys := by
  intro study v h
  cases study with
  | dict sfs =>
    simp only [structure_clinical_trial] at h
    cases hp : dictGet sfs "protocolSection" (.dict []) <;>
      cases hd : dictGet sfs "derivedSection" (.dict []) <;>
        (try rw [hp] at h) <;> (try rw [hd] at h) <;>
        first
          | exact Or.inl (Except.ok.inj h).symm
          | (right
             obtain ⟨a1, a2, a3, a4, a5, a6, a7, a8, a9, a10, a11, a12, a13, a14, a15, a16,
               a17, a18, lv, -, -, -, -, -, -, -, -, -, -, -, -, -, -, -, -, -, -, -, hv⟩ :=
               structureBody_ok_decomp _ _ v h
             cases lv <;> (subst hv; exact ⟨_, rfl, rfl⟩))
  | none => exact Or.inl (Except.ok.inj h).symm
  | bool b => exact Or.inl (Except.ok.inj h).symm
  | int n => exact Or.inl (Except.ok.inj h).symm
  | str s => exact Or.inl (Except.ok.inj h).symm
  | list xs => exact Or.inl (Except.ok.inj h).symm

/-- **C6 counterexample.** A well-formed candidate (its sections, where
present, are mappings) on which extraction raises AttributeError rather than
returning a record: the `identificationModule` value is not a mapping. -/
theorem c6_cex_wellformed_raises :
    wellFormedCand
      (.dict [("protocolSection", .dict [("identificationModule", .int 5)])]) = true ∧
    structure_clinical_trial
      (.dict [("protocolSection", .dict [("identificationModule", .int 5)])]) =
      .error .attributeError :=
  ⟨rfl, rfl⟩

/-- Witness for `c6_success_all_keys` at the empty dict. -/
theorem c6_success_all_keys_witness :
    structure_clinical_trial (.dict []) = .ok (.dict emptyFs) ∧
    (PyVal.dict emptyFs = PyVal.none ∨
      ∃ fs, PyVal.dict emptyFs = PyVal.dict fs ∧ fs.map Prod.fst = schemaKeys) :=
  ⟨rfl, c6_success_all_keys (.dict []) (.dict emptyFs) rfl⟩

/-- **C10.** On every successful extraction, the `brief_summary`,
`detailed_description` and `eligibility.criteria` fields are strings — never
null; and when the corresponding source leaf (`briefSummary`,
`detailedDescription`, `eligibilityCriteria`) is absent, the extracted field is
the empty string `""`, because the extractor substitutes `''` before markup
stripping. -/
theorem c10_text_fields_defaults :
    (∀ study fs, structure_clinical_trial study = .ok (.dict fs) →
      (∃ s, dictGet fs "brief_summary" PyVal.none = .str s) ∧
      (∃ s, dictGet fs "detailed_description" PyVal.none = .str s) ∧
      (∃ efs, dictGet fs "eligibility" PyVal.none = .dict efs ∧
        ∃ s, dictGet efs "criteria" PyVal.none = .str s)) ∧
    (∀ sfs ps fs dm, dictGet sfs "protocolSection" (.dict []) = .dict ps →
      structure_clinical_trial (.dict sfs) = .ok (.dict fs) →
      modGet ps "descriptionModule" = .dict dm →
      dm.lookup "briefSummary" = none →
      dictGet fs "brief_summary" PyVal.none = .str "" ∧
      (dm.lookup "detailedDescription" = none →
        dictGet fs "detailed_description" PyVal.none = .str "")) ∧
    (∀ sfs ps fs em, dictGet sfs "protocolSection" (.dict []) = .dict ps →
      structure_clinical_trial (.dict sfs) = .ok (.dict fs) →
      modGet ps "eligibilityModule" = .dict em →
      em.lookup "eligibilityCriteria" = none →
      ∃ efs, dictGet fs "eligibility" PyVal.none = .dict efs ∧
        dictGet efs "criteria" PyVal.none = .str "") := by
  refine ⟨?_, ?_, ?_⟩
  · intro study fs h
    cases study with
    | dict sfs =>
      obtain ⟨ps, ds, hp, hd, hb⟩ := structure_dict_ok_body sfs fs h
      obtain ⟨a3, a4, a8, h3, h4, h8, hf3, hf4, hf8⟩ := structureBody_fields ps ds fs hb
      obtain ⟨s3, hs3⟩ := f_brief_summary_ok_str ps a3 h3
      obtain ⟨s4, hs4⟩ := f_detailed_description_ok_str ps a4 h4
      obtain ⟨efs, hefs, s8, hs8⟩ := f_eligibility_ok_shape _ a8 h8
      refine ⟨⟨s3, ?_⟩, ⟨s4, ?_⟩, ⟨efs, ?_, s8, hs8⟩⟩
      · rw [hf3]; exact hs3
      · rw [hf4]; exact hs4
      · rw [hf8]; exact hefs
    | none => exact PyVal.noConfusion (Except.ok.inj h)
    | bool b => exact PyVal.noConfusion (Except.ok.inj h)
    | int n => exact PyVal.noConfusion (Except.ok.inj h)
    | str s => exact PyVal.noConfusion (Except.ok.inj h)
    | list xs => exact PyVal.noConfusion (Except.ok.inj h)
  · intro sfs ps fs dm hp h hdm hno
    obtain ⟨ps', ds, hp', hd, hb⟩ := structure_dict_ok_body sfs fs h
    have hpe : ps' = ps := (PyVal.dict.inj (hp.symm.trans hp')).symm
    subst hpe
    obtain ⟨a3, a4, a8, h3, h4, h8, hf3, hf4, hf8⟩ := structureBody_fields ps' ds fs hb
    constructor
    · have hbs : f_brief_summary ps' = .ok (.str "") := by
        unfold f_brief_summary
        simp only [hdm, pyGet, okBind]
        rw [show dictGet dm "briefSummary" (.str "") = .str "" by simp [dictGet, hno]]
        rfl
      have ha3 : a3 = .str "" := Except.ok.inj (h3.symm.trans hbs)
      rw [hf3]
      exact ha3
    · intro hno4
      have hds : f_detailed_description ps' = .ok (.str "") := by
        unfold f_detailed_description
        simp only [hdm, pyGet, okBind]
        rw [show dictGet dm "detailedDescription" (.str "") = .str "" by
          simp [dictGet, hno4]]
        rfl
      have ha4 : a4 = .str "" := Except.ok.inj (h4.symm.trans hds)
      rw [hf4]
      exact ha4
  · intro sfs ps fs em hp h hem hno
    obtain ⟨ps', ds, hp', hd, hb⟩ := structure_dict_ok_body sfs fs h
    have hpe : ps' = ps := (PyVal.dict.inj (hp.symm.trans hp')).symm
    subst hpe
    obtain ⟨a3, a4, a8, h3, h4, h8, hf3, hf4, hf8⟩ := structureBody_fields ps' ds fs hb
    rw [hem] at h8
    have hee : f_eligibility (.dict em) = .ok (.dict
        [("criteria", .str ""),
         ("healthy_volunteers", dictGet em "healthyVolunteers" PyVal.none),
         ("sex", dictGet em "sex" PyVal.none),
         ("gender_based", dictGet em "genderBased" PyVal.none),
         ("minimum_age", dictGet em "minimumAge" PyVal.none),
         ("maximum_age", dictGet em "maximumAge" PyVal.none)]) := by
      unfold f_eligibility
      simp only [pyGet, pyGetN, okBind]
      rw [show dictGet em "eligibilityCriteria" (.str "") = .str "" by simp [dictGet, hno]]
      rfl
    have ha8 := Except.ok.inj (h8.symm.trans hee)
    refine ⟨[("criteria", .str ""),
      ("healthy_volunteers", dictGet em "healthyVolunteers" PyVal.none),
      ("sex", dictGet em "sex" PyVal.none),
      ("gender_based", dictGet em "genderBased" PyVal.none),
      ("minimum_age", dictGet em "minimumAge" PyVal.none),
      ("maximum_age", dictGet em "maximumAge" PyVal.none)], ?_, rfl⟩
    rw [hf8]
    exact ha8

/-- Witness for `c10_text_fields_defaults` at the empty dict (all three source
leaves absent). -/
theorem c10_text_fields_defaults_witness :
    structure_clinical_trial (.dict []) = .ok (.dict emptyFs) ∧
    (∃ s, dictGet emptyFs "brief_summary" PyVal.none = .str s) ∧
    (∃ s, dictGet emptyFs "detailed_description" PyVal.none = .str s) ∧
    (∃ efs, dictGet emptyFs "eligibility" PyVal.none = .dict efs ∧
      ∃ s, dictGet efs "criteria" PyVal.none = .str s) :=
  ⟨rfl, c10_text_fields_defaults.1 (.dict []) emptyFs rfl⟩
